import Mathlib

/-!
Shallow embedding of the `nyan.py` terminal text editor: the `TextEditor`
line-buffer/cursor model and the `CatEditor` layout negotiator, together with
theorems checking the specification's claims against them.

Lines are modelled as `List Char` (Python strings of single code units),
the document as `List Line`, and Python's signed integer arithmetic in the
layout code as `Int`.
-/

namespace Nyan

/-- A line of text: one Python string stored in `TextEditor.text`. -/
abbrev Line := List Char

/-- The `TextEditor` state relevant to buffer editing: `text`, `cursor_x`
(column), `cursor_y` (row), `scroll_y`, and the `modified` flag. -/
structure EditorState where
  text : List Line
  cursor_x : Nat
  cursor_y : Nat
  scroll_y : Int
  modified : Bool
  deriving DecidableEq, Repr

/-- The line under the cursor, `self.text[self.cursor_y]` in the source. -/
def currentLine (s : EditorState) : Line := s.text.getD s.cursor_y []

/-- Python `list.insert i x`, which equals `l[:i] + [x] + l[i:]` (the index is
clamped to the list length, never out of range). -/
def pyInsert (l : List α) (i : Nat) (x : α) : List α := l.take i ++ x :: l.drop i

/-- `TextEditor.insert_char`: splice a character into the current line at the
column, advance the column, set `modified`. -/
def insert_char (c : Char) (s : EditorState) : EditorState :=
  let text := if s.text = [] then [[]] else s.text
  let current := text.getD s.cursor_y []
  { s with
    text := text.set s.cursor_y (current.take s.cursor_x ++ c :: current.drop s.cursor_x)
    cursor_x := s.cursor_x + 1
    modified := true }

/-- `TextEditor.insert_newline`: truncate the current line at the column and
insert the remainder as a new line right after it; cursor moves to the start of
that new line. -/
def insert_newline (s : EditorState) : EditorState :=
  let text := if s.text = [] then [[]] else s.text
  let current := text.getD s.cursor_y []
  { s with
    text := pyInsert (text.set s.cursor_y (current.take s.cursor_x))
      (s.cursor_y + 1) (current.drop s.cursor_x)
    cursor_y := s.cursor_y + 1
    cursor_x := 0
    modified := true }

/-- `TextEditor.delete_char` (backspace): delete the character before the column,
or join with the previous line when at column 0, or do nothing at (0, 0). -/
def delete_char (s : EditorState) : EditorState :=
  if s.text = [] then s
  else
    let current := currentLine s
    if 0 < s.cursor_x then
      { s with
        text := s.text.set s.cursor_y
          (current.take (s.cursor_x - 1) ++ current.drop s.cursor_x)
        cursor_x := s.cursor_x - 1
        modified := true }
    else if 0 < s.cursor_y then
      let prev := s.text.getD (s.cursor_y - 1) []
      { s with
        cursor_x := prev.length
        text := (s.text.set (s.cursor_y - 1) (prev ++ current)).eraseIdx s.cursor_y
        cursor_y := s.cursor_y - 1
        modified := true }
    else s

/-- The cursor-motion directions handled by `TextEditor.move_cursor`
(`KEY_RIGHT`, `KEY_LEFT`, `KEY_UP`, `KEY_DOWN`, `KEY_HOME`, `KEY_END`). -/
inductive Direction where
  | left
  | right
  | up
  | down
  | home
  | lineEnd
  deriving DecidableEq, Repr

/-- `TextEditor.move_cursor`: pure cursor motion, no buffer mutation. -/
def move_cursor (d : Direction) (s : EditorState) : EditorState :=
  match d with
  | .right =>
    if s.cursor_x < (s.text.getD s.cursor_y []).length then
      { s with cursor_x := s.cursor_x + 1 }
    else if s.cursor_y < s.text.length - 1 then
      { s with cursor_y := s.cursor_y + 1, cursor_x := 0 }
    else s
  | .left =>
    if 0 < s.cursor_x then
      { s with cursor_x := s.cursor_x - 1 }
    else if 0 < s.cursor_y then
      { s with cursor_y := s.cursor_y - 1
               cursor_x := (s.text.getD (s.cursor_y - 1) []).length }
    else s
  | .up =>
    if 0 < s.cursor_y then
      { s with cursor_y := s.cursor_y - 1
               cursor_x := min s.cursor_x (s.text.getD (s.cursor_y - 1) []).length }
    else s
  | .down =>
    if s.cursor_y < s.text.length - 1 then
      { s with cursor_y := s.cursor_y + 1
               cursor_x := min s.cursor_x (s.text.getD (s.cursor_y + 1) []).length }
    else s
  | .home => { s with cursor_x := 0 }
  | .lineEnd => { s with cursor_x := (s.text.getD s.cursor_y []).length }

/-- The mutating buffer operations quantified over by the invariant claim. -/
inductive Op where
  | insertChar (c : Char)
  | insertNewline
  | deleteBackward
  deriving DecidableEq, Repr

/-- Apply one buffer operation. -/
def applyOp (op : Op) (s : EditorState) : EditorState :=
  match op with
  | .insertChar c => insert_char c s
  | .insertNewline => insert_newline s
  | .deleteBackward => delete_char s

/-- Apply a finite sequence of buffer operations, left to right. -/
def applyOps (ops : List Op) (s : EditorState) : EditorState :=
  List.foldl (fun t op => applyOp op t) s ops

/-- The Document invariant (at least one line) together with the Cursor
invariant (`0 ≤ row < len(Document)` and `0 ≤ column ≤ len(Document[row])`);
the lower bounds are inherent in `Nat`. -/
def Invariant (s : EditorState) : Prop :=
  0 < s.text.length ∧ s.cursor_y < s.text.length ∧ s.cursor_x ≤ (currentLine s).length

instance (s : EditorState) : Decidable (Invariant s) := by
  unfold Invariant
  infer_instance

/-- `CatEditor.min_editor_lines`. -/
def min_editor_lines : Int := 5

/-- `CatEditor.cat_head_height`. -/
def cat_head_height : Int := 3

/-- `CatEditor.cat_bottom_height`. -/
def cat_bottom_height : Int := 4

/-- `CatEditor.calculate_editor_space`, as a function of the terminal height and
the number of document lines (the two inputs it reads). -/
def calculate_editor_space (height : Int) (textLen : Nat) : Int :=
  let max_available := height - cat_head_height - cat_bottom_height - 1
  let desired_lines := (textLen : Int) + 5
  let editor_lines := min desired_lines max_available
  max editor_lines min_editor_lines

/-- `TextEditor.scroll_if_needed`: the two sequential adjustments to `scroll_y`,
with the viewport height passed in as a parameter (the source obtains it from
`cat_editor.calculate_editor_space()`). -/
def scroll_if_needed (cursor_y scroll_y editor_height : Int) : Int :=
  let s1 := if editor_height ≤ cursor_y - scroll_y then cursor_y - editor_height + 1
            else scroll_y
  if cursor_y < s1 then cursor_y else s1

/-- The editor-region geometry computed by `CatEditor.draw_cat`: `none` when the
too-small guard rejects the terminal, otherwise `(editor_start_row,
editor_end_row)` after the defensive clamp against the bottom chrome. -/
def draw_cat_geometry (height width : Int) (textLen : Nat) : Option (Int × Int) :=
  if height < 10 ∨ width < 50 then none
  else
    let editor_lines := calculate_editor_space height textLen
    let editor_start_row := cat_head_height
    let e := editor_start_row + editor_lines
    let editor_end_row := if height - cat_bottom_height ≤ e then height - cat_bottom_height
                          else e
    some (editor_start_row, editor_end_row)

/-- The confirmation keys `CatEditor.run` accepts as "yes" at the Save-modified
prompt (whose text is "Save modified buffer? (Y/n)"): `y`, `Y`, and Enter, the
default affirmative under the Y/n convention. -/
def isYesResponse (ch : Int) : Prop := ch = 121 ∨ ch = 89 ∨ ch = 10

/-- The confirmation keys `CatEditor.run` accepts as "no": `n` and `N`. -/
def isNoResponse (ch : Int) : Prop := ch = 110 ∨ ch = 78

/-- The Ctrl+X branch of `CatEditor.run`: given the modified flag, the
confirmation key read, and whether `save_file` would succeed, the value of
`self.running` afterwards (`false` means the session terminates). -/
def ctrl_x_running (modified : Bool) (ch : Int) (save_ok : Bool) : Bool :=
  if modified then
    if ch = 121 ∨ ch = 89 ∨ ch = 10 then
      if save_ok then false else true
    else if ch = 110 ∨ ch = 78 then false
    else true
  else false

/-- Helper for `readlines`: accumulate the characters of the current record;
a record is closed right after each newline. -/
def readlinesAux : List Char → List Char → List (List Char)
  | [], acc => if acc = [] then [] else [acc]
  | c :: cs, acc =>
    if c = '\n' then (acc ++ [c]) :: readlinesAux cs []
    else readlinesAux cs (acc ++ [c])

/-- Python `file.readlines()`: split content into records, each keeping its
trailing newline; a final record without a newline is kept as-is. -/
def readlines (content : List Char) : List (List Char) := readlinesAux content []

/-- Python `line.rstrip` with a newline argument, as used by `load_file`: drop
every trailing newline character. -/
def rstrip_newline (l : List Char) : List Char :=
  (l.reverse.dropWhile (fun c => c = '\n')).reverse

/-- The character stream `TextEditor.save_file` writes: every line followed by a
single newline, including a possibly-empty last line. -/
def serialize (text : List Line) : List Char :=
  (text.map (fun l => l ++ ['\n'])).flatten

/-- Outcome of the underlying `open(path).readlines()` call: raw content,
`FileNotFoundError`, or any other I/O exception. -/
inductive ReadResult where
  | ok (content : List Char)
  | fileNotFound
  | ioError (msg : String)
  deriving DecidableEq, Repr

/-- `TextEditor.load_file`: with no filename, a fresh single-empty-line buffer;
with a filename, the try block catches only `FileNotFoundError` (also yielding a
fresh buffer), so any other exception escapes to the caller (`Except.error`).
On success each record is stripped of its trailing newlines. -/
def load_file (filename : Option String) (readResult : ReadResult) :
    Except String (List Line × String) :=
  match filename with
  | none => .ok ([[]], "New buffer")
  | some f =>
    match readResult with
    | .ok content => .ok ((readlines content).map rstrip_newline, "Read file: " ++ f)
    | .fileNotFound => .ok ([[]], "New file: " ++ f)
    | .ioError msg => .error msg

/-- What `TextEditor.save_file` produced: the content written to disk (if any
write happened), the boolean return value, and the status message set. -/
structure SaveOutcome where
  written : Option (List Char)
  ret : Bool
  message : Option String
  deriving DecidableEq, Repr

/-- `TextEditor.save_file`: with no filename it returns `False` without touching
the filesystem; otherwise it writes every line followed by a newline, and an
I/O exception (`writeErr`) is caught, reported as a status message, and turned
into a `False` return. -/
def save_file (filename : Option String) (text : List Line) (writeErr : Option String) :
    SaveOutcome :=
  match filename with
  | none => ⟨none, false, none⟩
  | some f =>
    match writeErr with
    | none => ⟨some (serialize text), true, some ("Saved: " ++ f)⟩
    | some e => ⟨none, false, some ("Error saving: " ++ e)⟩

/-- Layout constant named in the spec: height of the top chrome. -/
def topChromeHeight : Int := 3

/-- Layout constant named in the spec: height of the bottom chrome. -/
def bottomChromeHeight : Int := 4

/-- Layout constant named in the spec: the reserved help line. -/
def reservedHelpLine : Int := 1

/-- Layout constant named in the spec: padding beyond the content. -/
def paddingLines : Int := 5

/-- Layout constant named in the spec: minimum editor height. -/
def minimumEditorHeight : Int := 5

/-- The layout formula exactly as the spec's claim words it, for comparison
against the source's `calculate_editor_space`. -/
def editorHeightSpec (terminalHeight : Int) (docLen : Nat) : Int :=
  max (min ((docLen : Int) + paddingLines)
        (terminalHeight - topChromeHeight - bottomChromeHeight - reservedHelpLine))
    minimumEditorHeight

theorem getD_set_self (l : List α) (i : Nat) (v d : α) (h : i < l.length) :
    (l.set i v).getD i d = v := by
  rw [List.getD_eq_getElem?_getD, List.getElem?_set, if_pos rfl, if_pos h]
  rfl

theorem length_pyInsert (l : List α) (i : Nat) (x : α) :
    (pyInsert l i x).length = l.length + 1 := by
  simp only [pyInsert, List.length_append, List.length_cons, List.length_take,
    List.length_drop]
  omega

theorem getD_eraseIdx_of_lt (l : List α) (i j : Nat) (d : α) (hj : j < i)
    (hl : j < l.length) :
    (l.eraseIdx i).getD j d = l.getD j d := by
  rw [List.eraseIdx_eq_take_drop_succ, List.getD_eq_getElem?_getD,
    List.getD_eq_getElem?_getD, List.getElem?_append,
    if_pos (by simp only [List.length_take]; omega), List.getElem?_take, if_pos hj]

theorem invariant_insert_char (c : Char) (s : EditorState) (h : Invariant s) :
    Invariant (insert_char c s) := by
  obtain ⟨h1, h2, h3⟩ := h
  have hne : s.text ≠ [] := List.length_pos.mp h1
  unfold currentLine at h3
  simp only [insert_char, Invariant, currentLine, if_neg hne, List.length_set]
  refine ⟨h1, h2, ?_⟩
  rw [getD_set_self _ _ _ _ h2]
  simp only [List.length_append, List.length_cons, List.length_take, List.length_drop]
  omega

theorem invariant_insert_newline (s : EditorState) (h : Invariant s) :
    Invariant (insert_newline s) := by
  obtain ⟨h1, h2, _h3⟩ := h
  have hne : s.text ≠ [] := List.length_pos.mp h1
  simp only [insert_newline, Invariant, currentLine, if_neg hne, length_pyInsert,
    List.length_set]
  exact ⟨by omega, by omega, Nat.zero_le _⟩

theorem invariant_delete_char (s : EditorState) (h : Invariant s) :
    Invariant (delete_char s) := by
  obtain ⟨h1, h2, h3⟩ := h
  have hne : s.text ≠ [] := List.length_pos.mp h1
  unfold currentLine at h3
  by_cases hx : 0 < s.cursor_x
  · simp only [delete_char, Invariant, currentLine, if_neg hne, if_pos hx,
      List.length_set]
    refine ⟨h1, h2, ?_⟩
    rw [getD_set_self _ _ _ _ h2]
    simp only [List.length_append, List.length_take, List.length_drop]
    omega
  · by_cases hy : 0 < s.cursor_y
    · simp only [delete_char, Invariant, currentLine, if_neg hne, if_neg hx, if_pos hy]
      have hset : (s.text.set (s.cursor_y - 1)
          (s.text.getD (s.cursor_y - 1) [] ++ s.text.getD s.cursor_y [])).length =
          s.text.length := List.length_set ..
      have hlen : ((s.text.set (s.cursor_y - 1)
          (s.text.getD (s.cursor_y - 1) [] ++ s.text.getD s.cursor_y [])).eraseIdx
            s.cursor_y).length = s.text.length - 1 := by
        rw [List.length_eraseIdx, hset, if_pos h2]
      refine ⟨by rw [hlen]; omega, by rw [hlen]; omega, ?_⟩
      rw [getD_eraseIdx_of_lt _ _ _ _ (by omega) (by rw [hset]; omega),
        getD_set_self _ _ _ _ (by omega), List.length_append]
      exact Nat.le_add_right _ _
    · simp only [delete_char, if_neg hne, if_neg hx, if_neg hy]
      exact ⟨h1, h2, h3⟩

theorem invariant_applyOp (op : Op) (s : EditorState) (h : Invariant s) :
    Invariant (applyOp op s) := by
  cases op with
  | insertChar c => exact invariant_insert_char c s h
  | insertNewline => exact invariant_insert_newline s h
  | deleteBackward => exact invariant_delete_char s h

theorem invariant_applyOps (ops : List Op) (s : EditorState) (h : Invariant s) :
    Invariant (applyOps ops s) := by
  induction ops generalizing s with
  | nil => exact h
  | cons op ops ih => exact ih (applyOp op s) (invariant_applyOp op s h)

/-- C1: from any state satisfying the Document and Cursor invariants, after each
single operation of any finite sequence of insertChar / insertNewline /
deleteBackward (that is, after every prefix of the sequence) both invariants
hold again. -/
theorem invariant_holds_after_each_op (ops : List Op) (s : EditorState)
    (h : Invariant s) (i : Nat) (_hi : i ≤ ops.length) :
    Invariant (applyOps (ops.take i) s) :=
  invariant_applyOps (ops.take i) s h

/-- Witness for C1: a concrete three-operation sequence from a concrete valid
state, checked after its length-2 prefix. -/
theorem invariant_holds_after_each_op_witness :
    Invariant (applyOps
      (([Op.insertChar 'a', Op.insertNewline, Op.deleteBackward]).take 2)
      ⟨[['h', 'i']], 0, 0, 0, false⟩) :=
  invariant_holds_after_each_op [Op.insertChar 'a', Op.insertNewline, Op.deleteBackward]
    ⟨[['h', 'i']], 0, 0, 0, false⟩ (by decide) 2 (by decide)

/-- C3: for every terminal height and document length the layout negotiator
computes `editorHeight = max(min(len + 5, height - 3 - 4 - 1), 5)`, and in the
spec's scenario (height 20, 2 document lines) the result is 7. -/
theorem calculate_editor_space_eq_spec :
    (∀ (height : Int) (docLen : Nat),
      calculate_editor_space height docLen = editorHeightSpec height docLen) ∧
    calculate_editor_space 20 2 = 7 :=
  ⟨fun _ _ => rfl, by decide⟩

/-- C2: for a cursor row at a nonnegative index and a positive viewport height,
`scroll_if_needed` leaves the scroll at most the cursor row and the cursor row
strictly inside the viewport; in the spec's scenario (row 25, scroll 0,
viewport 10) the new scroll is 16. -/
theorem scroll_if_needed_cursor_visible (cursor_y scroll_y editor_height : Int)
    (_hcy : 0 ≤ cursor_y) (hh : 0 < editor_height) :
    scroll_if_needed cursor_y scroll_y editor_height ≤ cursor_y ∧
    cursor_y < scroll_if_needed cursor_y scroll_y editor_height + editor_height ∧
    scroll_if_needed 25 0 10 = 16 := by
  refine ⟨?_, ?_, by decide⟩
  all_goals
    simp only [scroll_if_needed]
    split_ifs <;> omega

/-- Witness for C2 at the spec's scenario input. -/
theorem scroll_if_needed_cursor_visible_witness :
    scroll_if_needed 25 0 10 ≤ 25 ∧
    (25 : Int) < scroll_if_needed 25 0 10 + 10 ∧
    scroll_if_needed 25 0 10 = 16 :=
  scroll_if_needed_cursor_visible 25 0 10 (by decide) (by decide)

/-- C4 counterexample: terminal height 10 and width 50 pass the too-small guard,
but with a one-line document the rendered region is (3, 6) while the layout
algorithm's editorHeight is 5, so `editorEndRow - editorStartRow` is not
`editorHeight`. -/
theorem draw_cat_geometry_height_mismatch :
    draw_cat_geometry 10 50 1 = some (3, 6) ∧
    calculate_editor_space 10 1 = 5 ∧ (6 : Int) - 3 ≠ 5 := by
  decide

/-- C4 amended: for every terminal passing the too-small guard, the rendered
region satisfies `editorEndRow ≤ terminalHeight - bottomChromeHeight` (enforced
by the defensive clamp), and `editorEndRow - editorStartRow` equals the layout
algorithm's editorHeight whenever that height fits above the bottom chrome. -/
theorem draw_cat_geometry_clamped (height width : Int) (textLen : Nat)
    (hh : 10 ≤ height) (hw : 50 ≤ width) :
    ∃ startRow endRow,
      draw_cat_geometry height width textLen = some (startRow, endRow) ∧
      endRow ≤ height - cat_bottom_height ∧
      (cat_head_height + calculate_editor_space height textLen ≤
          height - cat_bottom_height →
        endRow - startRow = calculate_editor_space height textLen) := by
  simp only [draw_cat_geometry]
  rw [if_neg (by omega)]
  split_ifs with hcl
  · exact ⟨_, _, rfl, le_refl _, fun hfit => by omega⟩
  · exact ⟨_, _, rfl, by omega, fun hfit => by omega⟩

/-- Witness for C4 (amended) at the spec's layout scenario. -/
theorem draw_cat_geometry_clamped_witness :
    ∃ startRow endRow,
      draw_cat_geometry 20 50 2 = some (startRow, endRow) ∧
      endRow ≤ 20 - cat_bottom_height ∧
      (cat_head_height + calculate_editor_space 20 2 ≤ 20 - cat_bottom_height →
        endRow - startRow = calculate_editor_space 20 2) :=
  draw_cat_geometry_clamped 20 50 2 (by decide) (by decide)

/-- C5: with the modified flag set, the Ctrl+X branch of the event loop
terminates the session exactly when the confirmation key is an accepted yes
response (y, Y, or Enter under the Y/n prompt) and the save succeeds, or an
accepted no response (n, N); every other response leaves the session running. -/
theorem ctrl_x_exit_characterization (ch : Int) (save_ok : Bool) :
    ctrl_x_running true ch save_ok = false ↔
      (isYesResponse ch ∧ save_ok = true) ∨ isNoResponse ch := by
  simp only [ctrl_x_running, isYesResponse, isNoResponse, if_true]
  split_ifs with h1 h2 <;> cases save_ok <;> simp_all
  all_goals omega

theorem take_succ_set_self (l : List α) (i : Nat) (v : α) (h : i < l.length) :
    (l.set i v).take (i + 1) = l.take i ++ [v] := by
  induction l generalizing i with
  | nil => simp at h
  | cons a l ih =>
    cases i with
    | zero => simp
    | succ i =>
      rw [List.set_cons_succ, List.take_succ_cons, List.take_succ_cons,
        ih i (by simpa using h), List.cons_append]

theorem drop_succ_set_self (l : List α) (i : Nat) (v : α) :
    (l.set i v).drop (i + 1) = l.drop (i + 1) := by
  rw [List.drop_set, if_pos (Nat.lt_succ_self i)]

/-- C7: deleteBackward on a valid state removes the character before the column
and decrements the column when the column is positive; at column 0 on a
positive row it appends the current line to the previous line, removes the
current line, and moves the cursor to the end of the old previous line; at
(0, 0) it changes nothing; the modified flag is set exactly in the first two
cases, where a deletion occurred. -/
theorem delete_char_spec (s : EditorState) (h : Invariant s) :
    (0 < s.cursor_x →
      delete_char s = { s with
        text := s.text.set s.cursor_y ((currentLine s).eraseIdx (s.cursor_x - 1))
        cursor_x := s.cursor_x - 1
        modified := true }) ∧
    (s.cursor_x = 0 → 0 < s.cursor_y →
      delete_char s = { s with
        text := s.text.take (s.cursor_y - 1) ++
          (s.text.getD (s.cursor_y - 1) [] ++ currentLine s) ::
            s.text.drop (s.cursor_y + 1)
        cursor_x := (s.text.getD (s.cursor_y - 1) []).length
        cursor_y := s.cursor_y - 1
        modified := true }) ∧
    (s.cursor_x = 0 → s.cursor_y = 0 → delete_char s = s) := by
  obtain ⟨h1, h2, _h3⟩ := h
  have hne : s.text ≠ [] := List.length_pos.mp h1
  refine ⟨fun hx => ?_, fun hx hy => ?_, fun hx hy => ?_⟩
  · simp only [delete_char, currentLine, if_neg hne, if_pos hx]
    rw [List.eraseIdx_eq_take_drop_succ, Nat.sub_add_cancel hx]
  · have hx0 : ¬0 < s.cursor_x := by omega
    simp only [delete_char, currentLine, if_neg hne, if_neg hx0, if_pos hy]
    have htake := take_succ_set_self s.text (s.cursor_y - 1)
      (s.text.getD (s.cursor_y - 1) [] ++ s.text.getD s.cursor_y []) (by omega)
    rw [Nat.sub_add_cancel hy] at htake
    have hdrop := drop_succ_set_self s.text (s.cursor_y - 1)
      (s.text.getD (s.cursor_y - 1) [] ++ s.text.getD s.cursor_y [])
    have hdrop2 : (s.text.set (s.cursor_y - 1)
        (s.text.getD (s.cursor_y - 1) [] ++ s.text.getD s.cursor_y [])).drop
          (s.cursor_y + 1) = s.text.drop (s.cursor_y + 1) := by
      rw [List.drop_set, if_pos (by omega)]
    rw [List.eraseIdx_eq_take_drop_succ, htake, hdrop2, List.append_assoc,
      List.singleton_append]
  · simp only [delete_char, if_neg hne, if_neg (by omega : ¬0 < s.cursor_x),
      if_neg (by omega : ¬0 < s.cursor_y)]

/-- Witness for C7 at the spec's scenario: Document ["ab"] with cursor (0, 2);
two deletes reach [""] at (0, 0) and a third call changes nothing. -/
theorem delete_char_spec_witness :
    delete_char ⟨[['a', 'b']], 2, 0, 0, false⟩ = ⟨[['a']], 1, 0, 0, true⟩ ∧
    delete_char ⟨[['a']], 1, 0, 0, true⟩ = ⟨[[]], 0, 0, 0, true⟩ ∧
    delete_char ⟨[[]], 0, 0, 0, true⟩ = ⟨[[]], 0, 0, 0, true⟩ :=
  ⟨((delete_char_spec ⟨[['a', 'b']], 2, 0, 0, false⟩ (by decide)).1
      (by decide)).trans (by decide),
   ((delete_char_spec ⟨[['a']], 1, 0, 0, true⟩ (by decide)).1
      (by decide)).trans (by decide),
   (delete_char_spec ⟨[[]], 0, 0, 0, true⟩ (by decide)).2.2 (by decide) (by decide)⟩

/-- C8: insertNewline on a valid state truncates the current line at the column,
inserts the remainder as a new line immediately after it, and leaves the cursor
at (row + 1, 0) with the modified flag set. -/
theorem insert_newline_spec (s : EditorState) (h : Invariant s) :
    insert_newline s = { s with
      text := s.text.take s.cursor_y ++
        (currentLine s).take s.cursor_x :: (currentLine s).drop s.cursor_x ::
          s.text.drop (s.cursor_y + 1)
      cursor_y := s.cursor_y + 1
      cursor_x := 0
      modified := true } := by
  obtain ⟨h1, h2, _h3⟩ := h
  have hne : s.text ≠ [] := List.length_pos.mp h1
  simp only [insert_newline, currentLine, pyInsert, if_neg hne]
  have htake := take_succ_set_self s.text s.cursor_y
    ((s.text.getD s.cursor_y []).take s.cursor_x) h2
  have hdrop := drop_succ_set_self s.text s.cursor_y
    ((s.text.getD s.cursor_y []).take s.cursor_x)
  rw [htake, hdrop, List.append_assoc, List.singleton_append]

/-- Witness for C8 at the spec's scenario: a three-line document with the cursor
at the end of the second line. -/
theorem insert_newline_spec_witness :
    insert_newline ⟨[['a', 'b', 'c'], ['d', 'e'], ['f']], 2, 1, 0, false⟩ =
      ⟨[['a', 'b', 'c'], ['d', 'e'], [], ['f']], 0, 2, 0, true⟩ :=
  (insert_newline_spec ⟨[['a', 'b', 'c'], ['d', 'e'], ['f']], 2, 1, 0, false⟩
    (by decide)).trans (by decide)

/-- C10: cursor motion in any direction leaves the document lines and the
modified flag unchanged, and motion at a buffer edge is a total no-op: Left at
(0, 0) and Right at the end of the last line leave the whole state unchanged. -/
theorem move_cursor_frame (d : Direction) (s : EditorState) :
    ((move_cursor d s).text = s.text ∧ (move_cursor d s).modified = s.modified) ∧
    (s.cursor_x = 0 → s.cursor_y = 0 → move_cursor Direction.left s = s) ∧
    (s.cursor_y = s.text.length - 1 → s.cursor_x = (currentLine s).length →
      move_cursor Direction.right s = s) := by
  refine ⟨?_, fun hx hy => ?_, fun hy hx => ?_⟩
  · cases d <;> simp only [move_cursor] <;> (try split_ifs) <;>
      exact ⟨by simp, by simp⟩
  · simp only [move_cursor, if_neg (by omega : ¬0 < s.cursor_x),
      if_neg (by omega : ¬0 < s.cursor_y)]
  · unfold currentLine at hx
    simp only [move_cursor, if_neg (by omega : ¬s.cursor_x <
        (s.text.getD s.cursor_y []).length),
      if_neg (by omega : ¬s.cursor_y < s.text.length - 1)]

/-- Witness for C10: on the one-empty-line document, the cursor at (0, 0) is
both at the buffer start and at the end of the last line, so Left and Right are
both no-ops there. -/
theorem move_cursor_frame_witness :
    move_cursor Direction.left ⟨[[]], 0, 0, 0, false⟩ = ⟨[[]], 0, 0, 0, false⟩ ∧
    move_cursor Direction.right ⟨[[]], 0, 0, 0, false⟩ = ⟨[[]], 0, 0, 0, false⟩ :=
  ⟨(move_cursor_frame Direction.left ⟨[[]], 0, 0, 0, false⟩).2.1 rfl rfl,
   (move_cursor_frame Direction.right ⟨[[]], 0, 0, 0, false⟩).2.2 rfl rfl⟩

theorem readlinesAux_append (l rest acc : List Char) (h : '\n' ∉ l) :
    readlinesAux (l ++ '\n' :: rest) acc =
      (acc ++ l ++ ['\n']) :: readlinesAux rest [] := by
  induction l generalizing acc with
  | nil => simp [readlinesAux]
  | cons c l ih =>
    have hc : ¬c = '\n' := fun hc => h (hc ▸ List.mem_cons_self c l)
    simp only [List.cons_append, readlinesAux, if_neg hc, List.append_eq]
    rw [ih (acc ++ [c]) (fun hm => h (List.mem_cons_of_mem c hm))]
    simp [List.append_assoc]

theorem dropWhile_eq_self_of_forall (p : α → Bool) (l : List α)
    (h : ∀ c ∈ l, p c = false) : l.dropWhile p = l := by
  cases l with
  | nil => rfl
  | cons c l =>
    rw [List.dropWhile_cons, if_neg (by simp [h c (List.mem_cons_self c l)])]

theorem rstrip_newline_append_newline (l : List Char) (h : '\n' ∉ l) :
    rstrip_newline (l ++ ['\n']) = l := by
  unfold rstrip_newline
  rw [List.reverse_append]
  show (List.dropWhile _ ('\n' :: l.reverse)).reverse = l
  rw [List.dropWhile_cons, if_pos (by decide), dropWhile_eq_self_of_forall _ _
    (fun c hc => decide_eq_false (fun he : c = '\n' => h (he ▸ List.mem_reverse.mp hc))),
    List.reverse_reverse]

theorem readlines_serialize (text : List Line) (h : ∀ l ∈ text, '\n' ∉ l) :
    (readlines (serialize text)).map rstrip_newline = text := by
  induction text with
  | nil => rfl
  | cons l ls ih =>
    have hl : '\n' ∉ l := h l (List.mem_cons_self l ls)
    have hls : ∀ m ∈ ls, '\n' ∉ m := fun m hm => h m (List.mem_cons_of_mem l hm)
    simp only [serialize, List.map_cons, List.flatten_cons, List.append_assoc,
      List.singleton_append]
    rw [readlines, readlinesAux_append l _ [] hl, List.nil_append, List.map_cons,
      rstrip_newline_append_newline l hl]
    exact congrArg (l :: ·) (ih hls)

/-- C9: for any document whose lines contain no newline characters, the stream
written by save (each line followed by one newline, including a possibly-empty
last line) reads back through load as exactly the same ordered lines. -/
theorem save_load_round_trip (f : String) (text : List Line)
    (h : ∀ l ∈ text, '\n' ∉ l) :
    (save_file (some f) text none).written = some (serialize text) ∧
    load_file (some f) (ReadResult.ok (serialize text)) =
      Except.ok (text, "Read file: " ++ f) := by
  refine ⟨rfl, ?_⟩
  simp only [load_file, readlines_serialize text h]

/-- Witness for C9 on a concrete two-line document ending in an empty line. -/
theorem save_load_round_trip_witness :
    (save_file (some "a.txt") [['h', 'i'], []] none).written =
      some (serialize [['h', 'i'], []]) ∧
    load_file (some "a.txt") (ReadResult.ok (serialize [['h', 'i'], []])) =
      Except.ok ([['h', 'i'], []], "Read file: " ++ "a.txt") :=
  save_load_round_trip "a.txt" [['h', 'i'], []] (by decide)

/-- C6 counterexample: an I/O failure on load other than file-not-found (for
example a permission error) is not caught by `load_file`; it escapes to the
caller as a raised exception instead of becoming a status message. -/
theorem load_file_ioError_raises :
    load_file (some "f") (ReadResult.ioError "Permission denied") =
      Except.error "Permission denied" := rfl

/-- C6 amended: loading a nonexistent path yields a fresh single-empty-line
document; saving with no path set performs no write and reports false; a save
I/O failure is reported as a user-visible status message with a false return
rather than raised; but a load I/O failure other than file-not-found escapes as
an exception (only `FileNotFoundError` is caught by `load_file`). -/
theorem persistence_error_handling :
    (∀ f : String,
      load_file (some f) ReadResult.fileNotFound =
        Except.ok ([[]], "New file: " ++ f)) ∧
    (∀ (text : List Line) (writeErr : Option String),
      (save_file none text writeErr).written = none ∧
      (save_file none text writeErr).ret = false) ∧
    (∀ (f : String) (text : List Line) (e : String),
      (save_file (some f) text (some e)).ret = false ∧
      (save_file (some f) text (some e)).written = none ∧
      (save_file (some f) text (some e)).message = some ("Error saving: " ++ e)) ∧
    (∀ f e : String, load_file (some f) (ReadResult.ioError e) = Except.error e) :=
  ⟨fun _ => rfl, fun _ _ => ⟨rfl, rfl⟩, fun _ _ _ => ⟨rfl, rfl, rfl⟩, fun _ _ => rfl⟩

end Nyan
